import Mathlib

/-!
Verification of the gifscii rendering pipeline (src/ascii.py) against its
natural-language specification.

The Python code is shallowly embedded: Python `int` is `ℤ` (or `ℕ` where the
value is a bitmap dimension, which PIL keeps non-negative), Python float
arithmetic on the small exact decimals used here is modelled by exact rational
arithmetic `ℚ`, and Python's `int()` conversion (truncation toward zero) is
`pyInt`.  Code paths that can raise a Python exception are embedded with
`Except`.
-/

namespace Gifscii

/-- Python's `int()` applied to a float/rational: truncation toward zero. -/
def pyInt (q : ℚ) : ℤ := if q < 0 then ⌈q⌉ else ⌊q⌋

/-- Errors that the embedded code paths can surface.  `zeroDivisionError` is
Python's `ZeroDivisionError`; `invalidGeometry` is the error class named by
the specification's taxonomy (the code itself never constructs it, it is
present so that statements can distinguish the two). -/
inductive PyError where
  | zeroDivisionError
  | invalidGeometry
deriving DecidableEq

/-- The dimension negotiation of `image_to_ascii` (src/ascii.py lines 25-38),
assuming both source dimensions are positive so that no division by zero
occurs: `aspect = width/height` (true division), the two candidates are
truncated with `int()`, and the branch on `width_by_height <= max_width`
selects the result. -/
def image_to_ascii_dims (srcW srcH : ℕ) (max_width max_height : ℤ) : ℤ × ℤ :=
  let aspect : ℚ := (srcW : ℚ) / (srcH : ℚ)
  let width_by_height : ℤ := pyInt ((max_height : ℚ) * aspect * 2)
  let height_by_width : ℤ := pyInt ((max_width : ℚ) / aspect * (1/2))
  if width_by_height ≤ max_width then
    (width_by_height, max_height)
  else
    (max_width, height_by_width)

/-- The dimension negotiation including Python's exceptional behaviour:
`aspect_ratio = image.width / image.height` raises `ZeroDivisionError` when
the height is zero, and `max_width / aspect_ratio` (line 29, evaluated
unconditionally before the branch) raises it when the aspect ratio is zero,
i.e. when the width is zero. -/
def image_to_ascii_dimsE (srcW srcH : ℕ) (max_width max_height : ℤ) :
    Except PyError (ℤ × ℤ) :=
  if srcH = 0 then .error .zeroDivisionError
  else if srcW = 0 then .error .zeroDivisionError
  else .ok (image_to_ascii_dims srcW srcH max_width max_height)

/-- The negotiation algorithm exactly as the specification words it
(section 4.1): `heightLimitedWidth = floor(maxHeight*aspect*2)`,
`widthLimitedHeight = floor(maxWidth/aspect*0.5)`, height-bound branch when
`heightLimitedWidth ≤ maxWidth`. -/
def negotiate_spec (srcW srcH : ℕ) (maxW maxH : ℤ) : ℤ × ℤ :=
  let aspect : ℚ := (srcW : ℚ) / (srcH : ℚ)
  let heightLimitedWidth : ℤ := ⌊(maxH : ℚ) * aspect * 2⌋
  let widthLimitedHeight : ℤ := ⌊(maxW : ℚ) / aspect * (1/2)⌋
  if heightLimitedWidth ≤ maxW then
    (heightLimitedWidth, maxH)
  else
    (maxW, widthLimitedHeight)

theorem pyInt_of_nonneg {q : ℚ} (h : 0 ≤ q) : pyInt q = ⌊q⌋ := by
  simp [pyInt, not_lt.mpr h]

/-- The glyph ramp of `image_to_ascii` (line 22), darkest to lightest. -/
def ascii_chars : String := "@%#*+=-:. "

/-- The glyph index computed at line 53:
`min(len(ascii_chars) - 1, pixel * len(ascii_chars) // 256)` with Python's
floor division (all values non-negative, so `ℕ` division coincides). -/
def char_index (pixel : ℕ) : ℕ :=
  min (ascii_chars.length - 1) (pixel * ascii_chars.length / 256)

/-- The glyph selected at line 54, `ascii_chars[char_index]`.  Python raises
`IndexError` out of bounds; the placeholder default `'?'` is outside the ramp
and is proven unreachable for samples in range. -/
def quantize (pixel : ℕ) : Char :=
  ascii_chars.toList.getD (char_index pixel) '?'

/-- A decoded bitmap as the rasterizer consumes it: dimensions plus a
grayscale sample accessor (what `image.convert('L').getpixel` provides). -/
structure SourceImage where
  width : ℕ
  height : ℕ
  getpixel : ℕ → ℕ → ℕ

/-- Modelled from the spec: `image.resize((width, height))` followed by
`convert('L')` (lines 41-44) is PIL library code, an external collaborator;
the spec fixes only that resampling is deterministic with one sample per
target cell, so it is modelled as nearest-neighbour sampling.  Every
deterministic resampler agrees with it on uniform images. -/
def resample (img : SourceImage) (w h : ℕ) (x y : ℕ) : ℕ :=
  img.getpixel (x * img.width / w) (y * img.height / h)

/-- The row strings built by the pixel loop of `image_to_ascii`
(lines 47-55): for each `y` in `range(height)` a line concatenating the glyph
of each `x` in `range(width)`. -/
def ascii_rows (img : SourceImage) (max_width max_height : ℤ) :
    Except PyError (List String) :=
  match image_to_ascii_dimsE img.width img.height max_width max_height with
  | .error e => .error e
  | .ok wh =>
      .ok ((List.range wh.2.toNat).map (fun y =>
        String.mk ((List.range wh.1.toNat).map (fun x =>
          quantize (resample img wh.1.toNat wh.2.toNat x y)))))

/-- `image_to_ascii` in full (line 57 joins the rows with newlines). -/
def image_to_ascii (img : SourceImage) (max_width max_height : ℤ) :
    Except PyError String :=
  (ascii_rows img max_width max_height).map (String.intercalate "\n")

/-- `extract_gif_frames` (lines 59-75): the decoder hands over a sequence of
raw frames each with an optional `duration` entry in its metadata (ms); every
frame is converted (`convert('RGB')`, an external PIL call modelled by the
abstract `convertRGB`) and appended together with
`info.get('duration', 100) / 1000.0` seconds. -/
def extract_gif_frames {α β : Type} (convertRGB : α → β)
    (raw : List (α × Option ℕ)) : List β × List ℚ :=
  (raw.map (fun p => convertRGB p.1),
   raw.map (fun p => ((p.2.getD 100 : ℚ) / 1000)))

/-- What the playback loop does to the screen before writing a frame. -/
inductive ScreenAction where
  | clear
  | home
deriving DecidableEq

/-- One iteration of the display loop: the screen action taken, the index of
the ASCII frame written, and the interval slept afterwards. -/
structure PlayStep where
  action : ScreenAction
  frame : ℕ
  sleep : ℚ
deriving DecidableEq

/-- The sleep computed at line 111: `max(0.03, duration * speed)`. -/
def sleep_time (duration speed : ℚ) : ℚ := max (3/100) (duration * speed)

/-- The display loop of `play_ascii_animation` (lines 97-114) as a trace:
step `n` (counting every frame ever displayed, `frame_count` in the code)
clears the screen iff `n = 0` and otherwise homes the cursor, displays frame
`n % L` where `L` is the length of the `zip` of the frame and duration lists,
and sleeps `max(0.03, duration * speed)`.  The `while True` loop has no exit,
so the trace is total: there is a step for every `n`. -/
def play_trace (numFrames : ℕ) (durations : List ℚ) (speed : ℚ) (n : ℕ) :
    PlayStep :=
  let L := min numFrames durations.length
  { action := if n = 0 then .clear else .home
    frame := n % L
    sleep := sleep_time (durations.getD (n % L) 0) speed }

/-- The `except KeyboardInterrupt` handler (lines 116-118): whatever the loop
state at interruption (`frame_count`), print exactly one stopped message and
exit with status 0.  Result: (number of stopped messages, exit code). -/
def interrupt_outcome (frame_count : ℕ) : ℕ × ℕ := (1, 0)

/-- `get_terminal_size` (lines 120-126): the result of the shutil query when
it succeeds, else the fallback `(80, 24)`. -/
def get_terminal_size (query : Option (ℤ × ℤ)) : ℤ × ℤ :=
  query.getD (80, 24)

/-- The command-line inputs `main` branches on. -/
structure CliArgs where
  fileExists : Bool
  hasKnownExt : Bool
  widthArg : Option ℤ
  decodeOk : Bool

/-- How a run of `main` ends, as far as the embedded control flow goes:
either the process exits with a code, or it reaches
`play_ascii_animation(frames, durations, max_width, max_height, speed)`
with the given bounds. -/
inductive MainOutcome where
  | exitCode (code : ℕ)
  | play (max_width max_height : ℤ)
deriving DecidableEq

/-- The control flow of `main` (lines 128-164): exit 1 if the file is
missing; warn (second component) but continue on an unrecognized extension;
`max_height = terminal_height - 4`; `if args.width:` is Python truthiness, so
only a nonzero width argument reaches the `args.width <= 0` check (exit 1) or
overrides `max_width`, while an absent or zero width argument falls through
to `max_width = min(terminal_width - 2, 120)`; a decode failure exits 1
inside `extract_gif_frames`. -/
def main_model (a : CliArgs) (terminal_width terminal_height : ℤ) :
    MainOutcome × Bool :=
  if !a.fileExists then (.exitCode 1, false)
  else
    let warned := !a.hasKnownExt
    let max_height := terminal_height - 4
    let max_width : Option ℤ :=
      match a.widthArg with
      | some w =>
          if w ≠ 0 then
            if w ≤ 0 then none else some w
          else some (min (terminal_width - 2) 120)
      | none => some (min (terminal_width - 2) 120)
    match max_width with
    | none => (.exitCode 1, warned)
    | some mw =>
        if a.decodeOk then (.play mw max_height, warned)
        else (.exitCode 1, warned)

/-! ## General facts about the embedded code, shared by several claims -/

theorem image_to_ascii_dims_eq (srcW srcH : ℕ) (mw mh : ℤ) :
    image_to_ascii_dims srcW srcH mw mh =
      if pyInt ((mh : ℚ) * ((srcW : ℚ) / (srcH : ℚ)) * 2) ≤ mw then
        (pyInt ((mh : ℚ) * ((srcW : ℚ) / (srcH : ℚ)) * 2), mh)
      else
        (mw, pyInt ((mw : ℚ) / ((srcW : ℚ) / (srcH : ℚ)) * (1/2))) := rfl

/-- The negotiated width never exceeds `max_width`, with no hypotheses at
all: the height-bound branch is guarded by exactly that comparison and the
width-bound branch returns `max_width` itself. -/
theorem image_to_ascii_dims_fst_le (srcW srcH : ℕ) (mw mh : ℤ) :
    (image_to_ascii_dims srcW srcH mw mh).1 ≤ mw := by
  rw [image_to_ascii_dims_eq]
  split
  · assumption
  · exact le_refl mw

/-! ## The claims -/

/-- C1 (amended): for positive `sourceWidth, sourceHeight, maxWidth,
maxHeight` the dimension negotiation of `image_to_ascii` returns a pair of
non-negative integers with `width ≤ maxWidth` and `height ≤ maxHeight`; the
original claim's "both ≥ 1" does not hold (see the counterexample). -/
theorem negotiate_bounds (srcW srcH : ℕ) (mw mh : ℤ)
    (hW : 0 < srcW) (hH : 0 < srcH) (hmw : 0 < mw) (hmh : 0 < mh) :
    0 ≤ (image_to_ascii_dims srcW srcH mw mh).1 ∧
    (image_to_ascii_dims srcW srcH mw mh).1 ≤ mw ∧
    0 ≤ (image_to_ascii_dims srcW srcH mw mh).2 ∧
    (image_to_ascii_dims srcW srcH mw mh).2 ≤ mh := by
  have ha : (0 : ℚ) < (srcW : ℚ) / (srcH : ℚ) := by
    apply div_pos <;> exact_mod_cast ‹_›
  have h1 : (0 : ℚ) ≤ (mh : ℚ) * ((srcW : ℚ) / (srcH : ℚ)) * 2 := by positivity
  have h2 : (0 : ℚ) ≤ (mw : ℚ) / ((srcW : ℚ) / (srcH : ℚ)) * (1/2) := by positivity
  rw [image_to_ascii_dims_eq]
  split
  · rename_i hle
    refine ⟨?_, hle, le_of_lt hmh, le_refl mh⟩
    rw [pyInt_of_nonneg h1]
    exact Int.floor_nonneg.mpr h1
  · rename_i hgt
    refine ⟨le_of_lt hmw, le_refl mw, ?_, ?_⟩
    · rw [pyInt_of_nonneg h2]
      exact Int.floor_nonneg.mpr h2
    · rw [pyInt_of_nonneg h2]
      rw [pyInt_of_nonneg h1] at hgt
      have hmw' : mw < ⌊(mh : ℚ) * ((srcW : ℚ) / (srcH : ℚ)) * 2⌋ := lt_of_not_le hgt
      have hq : ((mw : ℤ) + 1 : ℤ) ≤ ⌊(mh : ℚ) * ((srcW : ℚ) / (srcH : ℚ)) * 2⌋ := hmw'
      have hq' : ((mw : ℚ) + 1 : ℚ) ≤ (mh : ℚ) * ((srcW : ℚ) / (srcH : ℚ)) * 2 := by
        have := Int.le_floor.mp hq
        push_cast at this
        exact_mod_cast this
      have hlt : (mw : ℚ) / ((srcW : ℚ) / (srcH : ℚ)) * (1/2) < (mh : ℚ) := by
        have hrw : (mw : ℚ) / ((srcW : ℚ) / (srcH : ℚ)) * (1/2) =
            (mw : ℚ) / ((srcW : ℚ) / (srcH : ℚ) * 2) := by ring
        rw [hrw, div_lt_iff₀ (by positivity)]
        nlinarith [hq']
      exact le_of_lt (Int.floor_lt.mpr hlt)

/-- C1 witness: the amended claim applied at source 200 by 100 with bounds
120 by 40. -/
theorem negotiate_bounds_witness :
    0 ≤ (image_to_ascii_dims 200 100 120 40).1 ∧
    (image_to_ascii_dims 200 100 120 40).1 ≤ 120 ∧
    0 ≤ (image_to_ascii_dims 200 100 120 40).2 ∧
    (image_to_ascii_dims 200 100 120 40).2 ≤ 40 :=
  negotiate_bounds 200 100 120 40 (by norm_num) (by norm_num) (by norm_num)
    (by norm_num)

/-- C1 counterexample: a 1 by 1000 source against bounds 120 by 40 (all
positive) negotiates to width 0, so the claimed "both ≥ 1" is false:
`int(40 * (1/1000) * 2) = 0 ≤ 120` takes the height-bound branch. -/
theorem negotiate_width_zero_counterexample :
    image_to_ascii_dims 1 1000 120 40 = (0, 40) ∧
    ¬(1 ≤ (image_to_ascii_dims 1 1000 120 40).1) := by
  constructor
  · rw [image_to_ascii_dims_eq]
    norm_num [pyInt]
  · rw [image_to_ascii_dims_eq]
    norm_num [pyInt]

/-- C2: the glyph quantizer computes
`min(rampLength - 1, sample * rampLength // 256)` over the 10-character ramp,
the index is in 0..9 for every sample in [0,255], and it is monotone
non-decreasing in the sample. -/
theorem quantize_index_spec :
    ascii_chars.length = 10 ∧
    (∀ s : ℕ, char_index s = min 9 (s * 10 / 256)) ∧
    (∀ s : ℕ, s ≤ 255 → char_index s ≤ 9) ∧
    (∀ s t : ℕ, s ≤ t → char_index s ≤ char_index t) := by
  refine ⟨rfl, fun s => rfl, fun s _ => min_le_left 9 _, fun s t h => ?_⟩
  have : s * 10 / 256 ≤ t * 10 / 256 :=
    Nat.div_le_div_right (Nat.mul_le_mul_right 10 h)
  exact min_le_min (le_refl 9) this

/-- C2 witness: the range bound at sample 3 and monotonicity at the pair
(3, 7). -/
theorem quantize_index_spec_witness :
    (3 ≤ 255 ∧ char_index 3 ≤ 9) ∧ (3 ≤ 7 ∧ char_index 3 ≤ char_index 7) :=
  ⟨⟨by norm_num, quantize_index_spec.2.2.1 3 (by norm_num)⟩,
   ⟨by norm_num, quantize_index_spec.2.2.2 3 7 (by norm_num)⟩⟩

/-- C3: for positive inputs the code's dimension negotiation coincides with
the specification's two-candidate algorithm (`heightLimitedWidth`,
`widthLimitedHeight`, branch on `heightLimitedWidth ≤ maxWidth`), and on the
concrete scenario (source 200 by 100, bounds 120 by 40) it returns
(120, 30). -/
theorem negotiate_two_candidate_spec :
    (∀ (srcW srcH : ℕ) (mw mh : ℤ), 0 < srcW → 0 < srcH → 0 < mw → 0 < mh →
      image_to_ascii_dims srcW srcH mw mh = negotiate_spec srcW srcH mw mh) ∧
    image_to_ascii_dims 200 100 120 40 = (120, 30) := by
  constructor
  · intro srcW srcH mw mh hW hH hmw hmh
    have ha : (0 : ℚ) ≤ (srcW : ℚ) / (srcH : ℚ) := by positivity
    have h1 : (0 : ℚ) ≤ (mh : ℚ) * ((srcW : ℚ) / (srcH : ℚ)) * 2 := by
      have : (0 : ℚ) ≤ (mh : ℚ) := by exact_mod_cast le_of_lt hmh
      positivity
    have h2 : (0 : ℚ) ≤ (mw : ℚ) / ((srcW : ℚ) / (srcH : ℚ)) * (1/2) := by
      have : (0 : ℚ) ≤ (mw : ℚ) := by exact_mod_cast le_of_lt hmw
      positivity
    simp only [image_to_ascii_dims, negotiate_spec, pyInt_of_nonneg h1,
      pyInt_of_nonneg h2]
  · rw [image_to_ascii_dims_eq]
    norm_num [pyInt]

/-- C3 witness: the refinement applied at the concrete scenario of the
specification. -/
theorem negotiate_two_candidate_spec_witness :
    image_to_ascii_dims 200 100 120 40 = negotiate_spec 200 100 120 40 ∧
    image_to_ascii_dims 200 100 120 40 = (120, 30) :=
  ⟨negotiate_two_candidate_spec.1 200 100 120 40 (by norm_num) (by norm_num)
      (by norm_num) (by norm_num),
   negotiate_two_candidate_spec.2⟩

/-- C4: every step of the display loop sleeps exactly
`max(0.03, duration * speed)` for the duration paired with the displayed
frame; on durations [0.1, 0.05, 0.2] with speed 1 the intervals are
[0.1, 0.05, 0.2], and with speed 0.1 the first two are floored to 0.03. -/
theorem sleep_interval_spec :
    (∀ (numFrames : ℕ) (ds : List ℚ) (speed : ℚ) (n : ℕ) (d : ℚ),
      ds[n % min numFrames ds.length]? = some d →
      (play_trace numFrames ds speed n).sleep = max (3/100) (d * speed)) ∧
    ((play_trace 3 [1/10, 1/20, 1/5] 1 0).sleep = 1/10 ∧
     (play_trace 3 [1/10, 1/20, 1/5] 1 1).sleep = 1/20 ∧
     (play_trace 3 [1/10, 1/20, 1/5] 1 2).sleep = 1/5) ∧
    ((play_trace 3 [1/10, 1/20, 1/5] (1/10) 0).sleep = 3/100 ∧
     (play_trace 3 [1/10, 1/20, 1/5] (1/10) 1).sleep = 3/100) := by
  refine ⟨fun numFrames ds speed n d h => ?_, ⟨?_, ?_, ?_⟩, ?_, ?_⟩
  · simp [play_trace, sleep_time, List.getD_eq_getElem?_getD, h]
  all_goals simp [play_trace, sleep_time]; norm_num

/-- C4 witness: the general interval law applied to a single-frame animation
of duration 0.1 at speed 2. -/
theorem sleep_interval_spec_witness :
    ([1/10] : List ℚ)[0 % min 1 ([1/10] : List ℚ).length]? = some (1/10) ∧
    (play_trace 1 [1/10] 2 0).sleep = max (3/100) ((1/10) * 2) :=
  ⟨rfl, sleep_interval_spec.1 1 [1/10] 2 0 (1/10) rfl⟩

/-- C5: the display loop clears the terminal exactly at step 0 (the very
first displayed frame of the session) and homes the cursor at every later
step; at the wrap-around step (one full pass of the frame list) it shows
frame 0 again with a cursor home, not a clear; and the trace is total - for
every step count there is a next displayed frame, the loop never terminates
on its own. -/
theorem playback_clear_once_spec :
    (∀ (numFrames : ℕ) (ds : List ℚ) (speed : ℚ) (n : ℕ),
      (play_trace numFrames ds speed n).action = .clear ↔ n = 0) ∧
    (∀ (numFrames : ℕ) (ds : List ℚ) (speed : ℚ),
      0 < min numFrames ds.length →
      (play_trace numFrames ds speed (min numFrames ds.length)).frame = 0 ∧
      (play_trace numFrames ds speed (min numFrames ds.length)).action =
        .home) ∧
    (∀ (numFrames : ℕ) (ds : List ℚ) (speed : ℚ) (n : ℕ),
      0 < min numFrames ds.length →
      (play_trace numFrames ds speed n).frame < min numFrames ds.length) := by
  refine ⟨fun numFrames ds speed n => ?_, fun numFrames ds speed hL => ?_,
    fun numFrames ds speed n hL => ?_⟩
  · by_cases h : n = 0 <;> simp [play_trace, h]
  · have hne : min numFrames ds.length ≠ 0 := Nat.pos_iff_ne_zero.mp hL
    exact ⟨by simp [play_trace, Nat.mod_self], by simp [play_trace, hne]⟩
  · exact Nat.mod_lt n hL

/-- C5 witness: a two-frame animation clears at step 0, wraps back to frame 0
with a cursor home at step 2, and step 7 still displays a valid frame. -/
theorem playback_clear_once_spec_witness :
    ((play_trace 2 [1/10, 1/5] 1 0).action = .clear ↔ (0 : ℕ) = 0) ∧
    (0 < min 2 ([1/10, 1/5] : List ℚ).length ∧
     (play_trace 2 [1/10, 1/5] 1 (min 2 ([1/10, 1/5] : List ℚ).length)).frame
        = 0 ∧
     (play_trace 2 [1/10, 1/5] 1 (min 2 ([1/10, 1/5] : List ℚ).length)).action
        = .home) ∧
    (play_trace 2 [1/10, 1/5] 1 7).frame < min 2 ([1/10, 1/5] : List ℚ).length
    := by
  refine ⟨playback_clear_once_spec.1 2 [1/10, 1/5] 1 0, ⟨by norm_num, ?_⟩, ?_⟩
  · exact playback_clear_once_spec.2.1 2 [1/10, 1/5] 1 (by norm_num)
  · exact playback_clear_once_spec.2.2 2 [1/10, 1/5] 1 7 (by norm_num)

/-- C6: a run with an existing, decodable file and an explicit width argument
of 0 bypasses the `args.width <= 0` validation - Python's `if args.width:`
is false at 0 - and proceeds to playback with the default terminal-derived
width instead of exiting with code 1 as both the claim and the code's own
`Error: Width must be a positive integer.` branch intend. -/
theorem width_zero_bypasses_validation :
    main_model ⟨true, true, some 0, true⟩ 100 30 =
      (.play (min (100 - 2) 120) (30 - 4), false) ∧
    (main_model ⟨true, true, some 0, true⟩ 100 30).1 ≠ .exitCode 1 := by
  constructor
  · decide
  · decide

/-- C7 counterexample: for a 100 by 0 source the negotiation raises Python's
`ZeroDivisionError` (the division `image.width / image.height` is performed
and fails); it does not produce the specification's `InvalidGeometry`. -/
theorem dims_zero_height_counterexample :
    image_to_ascii_dimsE 100 0 80 24 = .error .zeroDivisionError ∧
    image_to_ascii_dimsE 100 0 80 24 ≠ .error .invalidGeometry := by
  refine ⟨rfl, fun h => ?_⟩
  simp [image_to_ascii_dimsE] at h

/-- C7 (amended): when the source height is 0 the dimension negotiation
raises an uncaught `ZeroDivisionError` - there is no `InvalidGeometry`
check - and the rasterizer propagates that error. -/
theorem dims_zero_height_zero_division (srcW : ℕ) (mw mh : ℤ)
    (px : ℕ → ℕ → ℕ) :
    image_to_ascii_dimsE srcW 0 mw mh = .error .zeroDivisionError ∧
    ascii_rows ⟨srcW, 0, px⟩ mw mh = .error .zeroDivisionError := by
  constructor <;> simp [ascii_rows, image_to_ascii_dimsE]

/-- Rasterizing a uniform source: every target cell resamples to the same
value, so every row is the same glyph repeated. -/
theorem ascii_rows_const (N v : ℕ) (mw mh : ℤ) (hN : N ≠ 0) :
    ascii_rows ⟨N, N, fun _ _ => v⟩ mw mh =
      .ok (List.replicate (image_to_ascii_dims N N mw mh).2.toNat
        (String.mk (List.replicate (image_to_ascii_dims N N mw mh).1.toNat
          (quantize v)))) := by
  simp [ascii_rows, image_to_ascii_dimsE, hN, resample, List.map_const',
    List.length_range]

/-- C8: an N by N source of uniform luminance 255 rasterizes to rows made
only of the lightest glyph, a space; uniform luminance 0 rasterizes to rows
made only of the densest glyph, at-sign. -/
theorem rasterize_uniform (N : ℕ) (mw mh : ℤ) (hN : 0 < N) :
    (∃ rows, ascii_rows ⟨N, N, fun _ _ => 255⟩ mw mh = .ok rows ∧
      ∀ r ∈ rows, ∀ c ∈ r.data, c = ' ') ∧
    (∃ rows, ascii_rows ⟨N, N, fun _ _ => 0⟩ mw mh = .ok rows ∧
      ∀ r ∈ rows, ∀ c ∈ r.data, c = '@') := by
  have hN' : N ≠ 0 := Nat.pos_iff_ne_zero.mp hN
  have h255 : quantize 255 = ' ' := rfl
  have h0 : quantize 0 = '@' := rfl
  constructor
  · refine ⟨_, ascii_rows_const N 255 mw mh hN', ?_⟩
    intro r hr c hc
    rw [List.eq_of_mem_replicate hr] at hc
    have hc' : c ∈ List.replicate (image_to_ascii_dims N N mw mh).1.toNat
        (quantize 255) := hc
    rw [List.eq_of_mem_replicate hc', h255]
  · refine ⟨_, ascii_rows_const N 0 mw mh hN', ?_⟩
    intro r hr c hc
    rw [List.eq_of_mem_replicate hr] at hc
    have hc' : c ∈ List.replicate (image_to_ascii_dims N N mw mh).1.toNat
        (quantize 0) := hc
    rw [List.eq_of_mem_replicate hc', h0]

/-- C8 witness: the uniform-luminance law applied to a 2 by 2 source with
bounds 10 by 10. -/
theorem rasterize_uniform_witness :
    0 < 2 ∧
    ((∃ rows, ascii_rows ⟨2, 2, fun _ _ => 255⟩ 10 10 = .ok rows ∧
      ∀ r ∈ rows, ∀ c ∈ r.data, c = ' ') ∧
     (∃ rows, ascii_rows ⟨2, 2, fun _ _ => 0⟩ 10 10 = .ok rows ∧
      ∀ r ∈ rows, ∀ c ∈ r.data, c = '@')) :=
  ⟨by norm_num, rasterize_uniform 2 10 10 (by norm_num)⟩

/-- C9: frame extraction returns one duration per frame (index-aligned, equal
lengths), and a frame with no `duration` metadata entry is assigned
100 ms / 1000 = 0.1 seconds. -/
theorem extract_frames_invariant {α β : Type} (convertRGB : α → β)
    (raw : List (α × Option ℕ)) :
    (extract_gif_frames convertRGB raw).1.length =
      (extract_gif_frames convertRGB raw).2.length ∧
    (extract_gif_frames convertRGB raw).2.length = raw.length ∧
    (∀ (i : ℕ) (p : α × Option ℕ), raw[i]? = some p → p.2 = none →
      (extract_gif_frames convertRGB raw).2[i]? = some (1/10)) := by
  refine ⟨by simp [extract_gif_frames], by simp [extract_gif_frames], ?_⟩
  intro i p hip hnone
  simp [extract_gif_frames, List.getElem?_map, hip, hnone]
  norm_num

/-- C9 witness: a single frame with missing duration metadata gets 0.1
seconds. -/
theorem extract_frames_invariant_witness :
    ([((5 : ℕ), (none : Option ℕ))])[0]? = some (5, none) ∧
    ((5 : ℕ), (none : Option ℕ)).2 = none ∧
    (extract_gif_frames (fun n : ℕ => n) [(5, none)]).2[0]? = some (1/10) :=
  ⟨rfl, rfl,
   (extract_frames_invariant (fun n : ℕ => n) [(5, none)]).2.2 0 (5, none)
     rfl rfl⟩

/-- C10: with no width argument, `main` hands playback
`max_width = min(terminal_width - 2, 120)` and
`max_height = terminal_height - 4`; the negotiated grid width never exceeds
`max_width`, hence never exceeds 120 columns whatever the terminal width; and
a failed terminal size query falls back to (80, 24). -/
theorem default_bounds_spec :
    (∀ (a : CliArgs) (tW tH : ℤ), a.fileExists = true → a.widthArg = none →
      a.decodeOk = true →
      (main_model a tW tH).1 = .play (min (tW - 2) 120) (tH - 4)) ∧
    (∀ (srcW srcH : ℕ) (mw mh : ℤ), mw ≤ 120 →
      (image_to_ascii_dims srcW srcH mw mh).1 ≤ 120) ∧
    get_terminal_size none = (80, 24) := by
  refine ⟨fun a tW tH h1 h2 h3 => ?_, fun srcW srcH mw mh h => ?_, rfl⟩
  · obtain ⟨fe, ext, wa, dec⟩ := a
    simp only at h1 h2 h3
    subst h1; subst h2; subst h3
    simp [main_model]
  · exact le_trans (image_to_ascii_dims_fst_le srcW srcH mw mh) h

/-- C10 witness: a 100 by 30 terminal with no width argument yields bounds
(98, 26), and the 120-column cap holds for the concrete scenario. -/
theorem default_bounds_spec_witness :
    (main_model ⟨true, true, none, true⟩ 100 30).1 =
      .play (min (100 - 2) 120) (30 - 4) ∧
    ((120 : ℤ) ≤ 120 ∧ (image_to_ascii_dims 200 100 120 40).1 ≤ 120) :=
  ⟨default_bounds_spec.1 ⟨true, true, none, true⟩ 100 30 rfl rfl rfl,
   le_refl 120, default_bounds_spec.2.1 200 100 120 40 (le_refl 120)⟩

end Gifscii
